import Mathlib

/-!
Verification development for the DayRhythm AI backend.

The analytics core of `src/controllers/ai.controller.ts` (heuristic
classifier, focus-block segmenter, balance scorer, insights orchestrator)
and the field mappings of `src/controllers/events.controller.ts` are
embedded shallowly: event times are rationals, JavaScript objects become
structures, the `categoryTotals` dictionary (whose keys range over the four
broad categories) becomes a four-field record, and `Math.round` is
Mathlib's `round` (both round half away from zero upward, `⌊x + 1/2⌋`).
Network effects are made explicit: the database fetch result and the
outcome of `JSON.parse` on the model reply are parameters, and a Boolean
records whether the outbound inference call was issued.

Definitions whose name starts with `spec` or `claimed` transcribe the
specification text instead of the source; they exist only to be compared
with the source-derived definitions.
-/

/-- A calendar event row as the analytics code reads it from the store:
`title`, `start_time`/`end_time` (decimal hours), optional `category`. -/
structure Event where
  title : String
  start_time : ℚ
  end_time : ℚ
  category : Option String
deriving DecidableEq, Repr

/-- ASCII lowering of one character, as `Char.toLower`. -/
def lowerChar (c : Char) : Char := c.toLower

/-- Model of JavaScript `String.prototype.toLowerCase` (the categories the
code matches on are ASCII, where the two agree): lower each character. -/
def lowerStr (s : String) : String := ⟨s.data.map lowerChar⟩

/-- Is `p` a prefix of `l`? (Character lists.) -/
def isPrefixList : List Char → List Char → Bool
  | [], _ => true
  | _ :: _, [] => false
  | a :: p, b :: l => a == b && isPrefixList p l

/-- Does `l` contain `p` as a contiguous sublist? -/
def hasSub (p : List Char) : List Char → Bool
  | [] => isPrefixList p []
  | b :: l => isPrefixList p (b :: l) || hasSub p l

/-- Model of JavaScript `s.includes(p)`. -/
def strContains (s p : String) : Bool := hasSub p.data s.data

/-- `event.category?.toLowerCase() || 'other'`: a missing category, or one
that lowers to the empty string, becomes `"other"`. -/
def lowerCategory : Option String → String
  | none => "other"
  | some s => if lowerStr s = "" then "other" else lowerStr s

/-- Energy label for a start hour. -/
inductive Energy where
  | high
  | medium
  | low
deriving DecidableEq, Repr

/-- Task type derived from the category label. -/
inductive TaskType where
  | deepWork
  | meetings
  | admin
  | creative
  | other
deriving DecidableEq, Repr

/-- Align of a task type with the energy of its slot. -/
inductive Align where
  | optimal
  | good
  | poor
deriving DecidableEq, Repr

/-- Focus-block quality rating. -/
inductive Quality where
  | excellent
  | good
  | fragmented
deriving DecidableEq, Repr

/-- Broad category bucket used only by the balance scorer. -/
inductive BroadCategory where
  | work
  | personal
  | health
  | other
deriving DecidableEq, Repr

/-- `calculateVisualInsights`, energy branch: high on `[9,12)`, medium on
`[6,9) ∪ [16,19)`, low elsewhere. -/
def optimalEnergy (startHour : ℚ) : Energy :=
  if 9 ≤ startHour ∧ startHour < 12 then .high
  else if (6 ≤ startHour ∧ startHour < 9) ∨ (16 ≤ startHour ∧ startHour < 19) then .medium
  else .low

/-- `calculateVisualInsights`, task-type branch: substring tests on the
lowered category, first match wins. -/
def taskTypeOf (category : String) : TaskType :=
  if strContains category "work" || strContains category "coding" || strContains category "deep" then
    .deepWork
  else if strContains category "meeting" || strContains category "call" then
    .meetings
  else if strContains category "email" || strContains category "admin" then
    .admin
  else if strContains category "design" || strContains category "creative" then
    .creative
  else
    .other

/-- Task type of an event's raw optional category. -/
def actualTaskType (c : Option String) : TaskType := taskTypeOf (lowerCategory c)

/-- `calculateVisualInsights`, alignment branch, in source order:
deep-work/high, meetings/low, deep-work/low, high/admin, else good. -/
def alignmentOf (t : TaskType) (e : Energy) : Align :=
  if t = .deepWork ∧ e = .high then .optimal
  else if t = .meetings ∧ e = .low then .poor
  else if t = .deepWork ∧ e = .low then .poor
  else if e = .high ∧ t = .admin then .poor
  else .good

/-- One row of the energy heatmap. -/
structure HeatmapEntry where
  title : String
  startTime : ℚ
  endTime : ℚ
  optimalEnergy : Energy
  actualTaskType : TaskType
  alignment : Align
  category : Option String
deriving DecidableEq, Repr

/-- The heatmap row built for one event. -/
def heatmapEntry (ev : Event) : HeatmapEntry :=
  let e := optimalEnergy ev.start_time
  let t := actualTaskType ev.category
  { title := ev.title
    startTime := ev.start_time
    endTime := ev.end_time
    optimalEnergy := e
    actualTaskType := t
    alignment := alignmentOf t e
    category := ev.category }

/-- `events.map(...)` building the heatmap. -/
def energyHeatmap (evs : List Event) : List HeatmapEntry := evs.map heatmapEntry

/-- Quality thresholds, in source order: `>= 1.5`, `>= 0.5`, else. -/
def qualityOf (d : ℚ) : Quality :=
  if d ≥ 3 / 2 then .excellent
  else if d ≥ 1 / 2 then .good
  else .fragmented

/-- One focus block. -/
structure FocusBlock where
  title : String
  startTime : ℚ
  duration : ℚ
  quality : Quality
  hasBreakAfter : Bool
  category : Option String
deriving DecidableEq, Repr

/-- Comparator of the `[...events].sort((a,b) => a.start_time - b.start_time)`
call. -/
def evLE (a b : Event) : Prop := a.start_time ≤ b.start_time

instance : DecidableRel evLE := fun a b => inferInstanceAs (Decidable (a.start_time ≤ b.start_time))

instance : IsTotal Event evLE := ⟨fun a b => le_total a.start_time b.start_time⟩

instance : IsTrans Event evLE := ⟨fun _ _ _ h h2 => le_trans h h2⟩

/-- The sorted copy of the event list (JavaScript `sort` is stable; so is
insertion sort). -/
def sortedEvents (evs : List Event) : List Event := List.insertionSort evLE evs

/-- The segmenter loop body over the already-sorted list: each event yields
one block; `hasBreakAfter` looks at the next event when there is one. -/
def focusBlocksAux : List Event → List FocusBlock
  | [] => []
  | e :: rest =>
    { title := e.title
      startTime := e.start_time
      duration := e.end_time - e.start_time
      quality := qualityOf (e.end_time - e.start_time)
      hasBreakAfter :=
        match rest.head? with
        | none => true
        | some n => decide (n.start_time - e.end_time ≥ 1 / 4)
      category := e.category } :: focusBlocksAux rest

/-- The focus blocks of an event list: sort, then segment. -/
def focusBlocks (evs : List Event) : List FocusBlock := focusBlocksAux (sortedEvents evs)

/-- Balance-scorer bucket rules, in source order: work, health, personal,
else other. -/
def broadCategoryOf (category : String) : BroadCategory :=
  if strContains category "work" || strContains category "meeting" || strContains category "coding" then
    .work
  else if strContains category "health" || strContains category "exercise" || strContains category "fitness" then
    .health
  else if strContains category "personal" || strContains category "family" || strContains category "social" then
    .personal
  else
    .other

/-- The `categoryTotals` dictionary: its keys range over the four broad
categories, so it is a four-field record (a missing key reads as 0, exactly
the `|| 0` in the source). -/
structure Totals where
  work : ℚ
  personal : ℚ
  health : ℚ
  other : ℚ
deriving DecidableEq, Repr

/-- `categoryTotals[broadCategory] = (categoryTotals[broadCategory] || 0) + duration`. -/
def addTotal (t : Totals) (b : BroadCategory) (d : ℚ) : Totals :=
  match b with
  | .work => { t with work := t.work + d }
  | .personal => { t with personal := t.personal + d }
  | .health => { t with health := t.health + d }
  | .other => { t with other := t.other + d }

/-- The `events.forEach` accumulation of per-bucket durations. -/
def catTotals (evs : List Event) : Totals :=
  evs.foldl
    (fun t ev => addTotal t (broadCategoryOf (lowerCategory ev.category)) (ev.end_time - ev.start_time))
    ⟨0, 0, 0, 0⟩

/-- `Object.values(categoryTotals).reduce((sum, val) => sum + val, 0)`. -/
def totalHours (evs : List Event) : ℚ :=
  let t := catTotals evs
  t.work + t.personal + t.health + t.other

/-- `calculateBalanceScore`: guard on `totalHours === 0`, then deviations of
the raw (unrounded) percentages from 60/25/15, clamped at 0 and rounded. -/
def calculateBalanceScore (t : Totals) (total : ℚ) : ℤ :=
  if total = 0 then 0
  else
    round (max 0 (100 -
      (|t.work / total * 100 - 60| + |t.personal / total * 100 - 25| +
        |t.health / total * 100 - 15|)))

/-- One percentage field: `total > 0 ? Math.round(bucket / total * 100) : 0`. -/
def pct (bucket total : ℚ) : ℤ :=
  if 0 < total then round (bucket / total * 100) else 0

/-- The nine-field `workLifeBalance` object built for a non-empty day. -/
structure FullWLB where
  work : ℚ
  personal : ℚ
  health : ℚ
  other : ℚ
  workPercentage : ℤ
  personalPercentage : ℤ
  healthPercentage : ℤ
  otherPercentage : ℤ
  balanceScore : ℤ
deriving DecidableEq, Repr

/-- The `workLifeBalance` object of `calculateVisualInsights`. -/
def fullWLB (evs : List Event) : FullWLB :=
  let t := catTotals evs
  let total := totalHours evs
  { work := t.work
    personal := t.personal
    health := t.health
    other := t.other
    workPercentage := pct t.work total
    personalPercentage := pct t.personal total
    healthPercentage := pct t.health total
    otherPercentage := pct t.other total
    balanceScore := calculateBalanceScore t total }

/-- The two shapes a `workLifeBalance` value can take in a response: the
four-field zero object of the empty-day short circuit, or the nine-field
object of `calculateVisualInsights`. -/
inductive WLB where
  | short (work personal health other : ℚ)
  | full (f : FullWLB)
deriving DecidableEq, Repr

/-- The `visualInsights` payload. -/
structure VisualInsights where
  energyHeatmap : List HeatmapEntry
  focusBlocks : List FocusBlock
  workLifeBalance : WLB
deriving DecidableEq, Repr

/-- `calculateVisualInsights(events)`. -/
def calculateVisualInsights (evs : List Event) : VisualInsights :=
  { energyHeatmap := energyHeatmap evs
    focusBlocks := focusBlocks evs
    workLifeBalance := .full (fullWLB evs) }

/-- A JSON value, as `JSON.parse` would yield it. -/
inductive Json where
  | null
  | bool (b : Bool)
  | num (q : ℚ)
  | str (s : String)
  | arr (xs : List Json)
  | obj (fields : List (String × Json))

/-- Is this JSON value an array whose members are all strings? -/
def isStringArray : Json → Bool
  | .arr xs => xs.all fun j => match j with | .str _ => true | _ => false
  | _ => false

/-- The five canned insight strings of the empty-day short circuit
(`generateDayInsights`, empty branch). -/
def emptyDayInsights : List String :=
  ["No events scheduled for this day. Consider planning your day for better productivity!",
   "A blank slate - perfect opportunity to set meaningful goals.",
   "Time blocking can help structure your unscheduled day.",
   "Consider adding at least 2-3 focused work blocks.",
   "Don" ++ String.singleton (Char.ofNat 39) ++ "t forget to schedule breaks and personal time."]

/-- The five fallback insight strings substituted when `JSON.parse` throws
on the model reply. -/
def fallbackInsights : List String :=
  ["Your schedule shows a good balance of activities.",
   "Consider adding buffer time between tasks.",
   "Mix focused work with breaks for optimal productivity.",
   "Track your energy levels to optimize task timing.",
   "Review your schedule weekly to identify patterns."]

/-- `JSON.parse(content)` wrapped in try/catch: a parsed value is kept
as-is (whatever its shape), a throw selects the fallback strings. -/
def insightsFromParse : Option Json → Json
  | some j => j
  | none => .arr (fallbackInsights.map .str)

/-- The success response of `POST /api/ai/insights`.  `calledLLM` records
whether the outbound inference call was issued on this path. -/
structure InsightsResponse where
  success : Bool
  insights : Json
  visualInsights : VisualInsights
  calledLLM : Bool

/-- `generateDayInsights` after the store fetch succeeded: `evs` is the
fetched event list and `llmParse` the outcome of `JSON.parse` on the model
reply (consulted only on the non-empty branch). -/
def generateDayInsights (evs : List Event) (llmParse : Option Json) : InsightsResponse :=
  if evs.isEmpty then
    { success := true
      insights := .arr (emptyDayInsights.map .str)
      visualInsights :=
        { energyHeatmap := []
          focusBlocks := []
          workLifeBalance := .short 0 0 0 0 }
      calledLLM := false }
  else
    { success := true
      insights := insightsFromParse llmParse
      visualInsights := calculateVisualInsights evs
      calledLLM := true }

/-- `notification_settings` / `notificationSettings` object. -/
structure NotificationSettings where
  enabled : Bool
  minutesBefore : List ℚ
  notificationIds : List String
deriving DecidableEq, Repr

/-- The default used by the mappers when the field is absent. -/
def defaultNotificationSettings : NotificationSettings :=
  { enabled := false, minutesBefore := [], notificationIds := [] }

/-- A request body accepted by `EventSchema` (optional fields are
`Option`). -/
structure EventBody where
  title : String
  description : Option String
  startTime : ℚ
  endTime : ℚ
  date : String
  emoji : Option String
  colorHex : Option String
  category : Option String
  participants : Option (List String)
  isCompleted : Option Bool
  notificationSettings : Option NotificationSettings
deriving DecidableEq, Repr

/-- A stored row, snake_case, with nullable columns as `Option`. -/
structure DbEventRow where
  user_id : String
  title : String
  description : Option String
  start_time : ℚ
  end_time : ℚ
  date : String
  emoji : Option String
  color_hex : Option String
  category : Option String
  participants : Option (List String)
  is_completed : Option Bool
  notification_settings : Option NotificationSettings
deriving DecidableEq, Repr

/-- The camelCase record the fetch side returns for one row. -/
structure ApiEvent where
  userId : String
  title : String
  description : Option String
  startTime : ℚ
  endTime : ℚ
  date : String
  emoji : Option String
  colorHex : Option String
  category : Option String
  participants : List String
  isCompleted : Bool
  notificationSettings : NotificationSettings
deriving DecidableEq, Repr

/-- JavaScript `s || null` on an optional string: the empty string is falsy
and becomes null. -/
def strOrNull : Option String → Option String
  | some s => if s = "" then none else some s
  | none => none

/-- Is `s` exactly ten characters shaped `DDDD-DDDD-DD`?  Models the
`EventSchema` date regex. -/
def dateOk (s : String) : Bool :=
  match s.data with
  | [a, b, c, d, h1, e, f, h2, g, h] =>
    a.isDigit && b.isDigit && c.isDigit && d.isDigit && h1 == Char.ofNat 45 &&
      e.isDigit && f.isDigit && h2 == Char.ofNat 45 && g.isDigit && h.isDigit
  | _ => false

/-- `EventSchema.safeParse` acceptance: non-empty title, times in `[0,24]`,
well-formed date. -/
def validEventBody (b : EventBody) : Bool :=
  decide (1 ≤ b.title.length) &&
    decide (0 ≤ b.startTime) && decide (b.startTime ≤ 24) &&
    decide (0 ≤ b.endTime) && decide (b.endTime ≤ 24) &&
    dateOk b.date

/-- The create-side camelCase-to-snake_case mapping (`createEvent`,
`dbEvent` object): JavaScript `||` defaulting throughout. -/
def toDbEvent (uid : String) (b : EventBody) : DbEventRow :=
  { user_id := uid
    title := b.title
    description := strOrNull b.description
    start_time := b.startTime
    end_time := b.endTime
    date := b.date
    emoji := strOrNull b.emoji
    color_hex := strOrNull b.colorHex
    category := strOrNull b.category
    participants := some (b.participants.getD [])
    is_completed := some (b.isCompleted.getD false)
    notification_settings := some (b.notificationSettings.getD defaultNotificationSettings) }

/-- The fetch-side snake_case-to-camelCase mapping (`getEvents`,
`transformedEvents`): `description`/`emoji`/`colorHex`/`category` pass
through, `participants`/`isCompleted`/`notificationSettings` are
`||`-defaulted (an array and an object are always truthy, and
`false || false` is `false`, so `getD` is exact). -/
def fromDbEvent (r : DbEventRow) : ApiEvent :=
  { userId := r.user_id
    title := r.title
    description := r.description
    startTime := r.start_time
    endTime := r.end_time
    date := r.date
    emoji := r.emoji
    colorHex := r.color_hex
    category := r.category
    participants := r.participants.getD []
    isCompleted := r.is_completed.getD false
    notificationSettings := r.notification_settings.getD defaultNotificationSettings }

/-- Create followed by fetch, on the stored row the create wrote. -/
def roundTrip (uid : String) (b : EventBody) : ApiEvent := fromDbEvent (toDbEvent uid b)

/-- Transcribed from the claim text: task type from the lower-cased
category (missing category becomes `"other"` before matching), first match
wins in the claimed order. -/
def specTaskType (c : Option String) : TaskType :=
  let cat := match c with | none => "other" | some s => lowerStr s
  if strContains cat "work" || strContains cat "coding" || strContains cat "deep" then
    .deepWork
  else if strContains cat "meeting" || strContains cat "call" then
    .meetings
  else if strContains cat "email" || strContains cat "admin" then
    .admin
  else if strContains cat "design" || strContains cat "creative" then
    .creative
  else
    .other

/-- Transcribed from the claim text: the §4.1 decision table, rows in the
claimed order, first match wins. -/
def alignTable (t : TaskType) (e : Energy) : Align :=
  if t = .deepWork ∧ e = .high then .optimal
  else if t = .deepWork ∧ e = .low then .poor
  else if t = .meetings ∧ e = .low then .poor
  else if t = .admin ∧ e = .high then .poor
  else .good

/-- Transcribed from the claim text: quality with two-sided middle band. -/
def specQuality (d : ℚ) : Quality :=
  if d ≥ 3 / 2 then .excellent
  else if 1 / 2 ≤ d ∧ d < 3 / 2 then .good
  else .fragmented

/-- Transcribed from the claim text: the focus block an event should yield
given the event that follows it in sorted order (if any). -/
def specBlock (e : Event) (next : Option Event) : FocusBlock :=
  { title := e.title
    startTime := e.start_time
    duration := e.end_time - e.start_time
    quality := specQuality (e.end_time - e.start_time)
    hasBreakAfter :=
      match next with
      | none => true
      | some n => decide (n.start_time - e.end_time ≥ 1 / 4)
    category := e.category }

/-- Total duration landing in one broad-category bucket. -/
def bucketDuration (evs : List Event) (b : BroadCategory) : ℚ :=
  ((evs.filter fun e => decide (broadCategoryOf (lowerCategory e.category) = b)).map
    fun e => e.end_time - e.start_time).sum

/-- Transcribed from the claim text: balance score recomputed from the
*rounded* percentages the scorer reports. -/
def claimedBalanceScore (evs : List Event) : ℤ :=
  round (max 0 ((100 : ℚ) -
    (|((fullWLB evs).workPercentage : ℚ) - 60| +
     |((fullWLB evs).personalPercentage : ℚ) - 25| +
     |((fullWLB evs).healthPercentage : ℚ) - 15|)))

/-- A one-hour `work` event. -/
def evWork : Event := { title := "Focus", start_time := 0, end_time := 1, category := some "work" }

/-- A two-hour `personal` event. -/
def evPersonal : Event := { title := "Dinner", start_time := 1, end_time := 3, category := some "personal" }

/-- A one-hour `coding` event. -/
def evCoding : Event := { title := "Code", start_time := 9, end_time := 10, category := some "coding" }

/-- A zero-duration event. -/
def evZero : Event := { title := "Blink", start_time := 5, end_time := 5, category := none }

lemma alignmentOf_eq_alignTable (t : TaskType) (e : Energy) : alignmentOf t e = alignTable t e := by
  cases t <;> cases e <;> rfl

lemma qualityOf_eq_specQuality (d : ℚ) : qualityOf d = specQuality d := by
  unfold qualityOf specQuality
  by_cases h1 : d ≥ 3 / 2
  · rw [if_pos h1, if_pos h1]
  · rw [if_neg h1, if_neg h1]
    by_cases h2 : d ≥ 1 / 2
    · rw [if_pos h2, if_pos ⟨h2, lt_of_not_le h1⟩]
    · rw [if_neg h2, if_neg fun hc => h2 hc.1]

lemma focusBlocksAux_length (s : List Event) : (focusBlocksAux s).length = s.length := by
  induction s with
  | nil => rfl
  | cons e r ih => simp [focusBlocksAux, ih]

lemma focusBlocksAux_map_startTime (s : List Event) :
    (focusBlocksAux s).map FocusBlock.startTime = s.map Event.start_time := by
  induction s with
  | nil => rfl
  | cons e r ih => simp [focusBlocksAux, ih]

lemma sorted_sortedEvents (evs : List Event) : List.Sorted evLE (sortedEvents evs) :=
  List.sorted_insertionSort evLE evs

lemma focusBlocksAux_getElem (s : List Event) :
    ∀ i : ℕ, (focusBlocksAux s)[i]? = (s[i]?).map fun e => specBlock e s[i + 1]? := by
  induction s with
  | nil => intro i; simp [focusBlocksAux]
  | cons e r ih =>
    intro i
    cases i with
    | zero =>
      cases r with
      | nil => simp [focusBlocksAux, specBlock, qualityOf_eq_specQuality]
      | cons e2 r2 => simp [focusBlocksAux, specBlock, qualityOf_eq_specQuality]
    | succ n => simpa [focusBlocksAux] using ih n

lemma catTotals_foldl (evs : List Event) : ∀ t : Totals,
    evs.foldl
      (fun t ev => addTotal t (broadCategoryOf (lowerCategory ev.category)) (ev.end_time - ev.start_time)) t =
    ⟨t.work + bucketDuration evs .work, t.personal + bucketDuration evs .personal,
     t.health + bucketDuration evs .health, t.other + bucketDuration evs .other⟩ := by
  induction evs with
  | nil => intro t; simp [bucketDuration]
  | cons e r ih =>
    intro t
    rw [List.foldl_cons, ih]
    rcases hb : broadCategoryOf (lowerCategory e.category) with _ | _ | _ | _ <;>
      simp [addTotal, hb, bucketDuration, List.filter_cons, Totals.mk.injEq] <;>
      ring

lemma catTotals_eq (evs : List Event) :
    catTotals evs =
      ⟨bucketDuration evs .work, bucketDuration evs .personal,
       bucketDuration evs .health, bucketDuration evs .other⟩ := by
  simpa [catTotals] using catTotals_foldl evs ⟨0, 0, 0, 0⟩

lemma bucketDuration_total (evs : List Event) :
    bucketDuration evs .work + bucketDuration evs .personal +
      bucketDuration evs .health + bucketDuration evs .other =
    (evs.map fun e => e.end_time - e.start_time).sum := by
  induction evs with
  | nil => simp [bucketDuration]
  | cons e r ih =>
    rcases hb : broadCategoryOf (lowerCategory e.category) with _ | _ | _ | _ <;>
      simp only [bucketDuration, List.filter_cons, hb, decide_eq_true_eq, List.map_cons,
        List.sum_cons] at ih ⊢ <;>
      simp <;> linarith [ih]

lemma totalHours_eq_sum (evs : List Event) :
    totalHours evs = (evs.map fun e => e.end_time - e.start_time).sum := by
  simpa [totalHours, catTotals_eq] using bucketDuration_total evs

/-- C2: for an empty event list, `POST /api/ai/insights` returns success
with exactly the five canned insight strings, empty heatmap and
focus-block arrays, and the zero-valued balance object, and it issues no
call to the external LLM, whatever the LLM oracle would have answered. -/
theorem empty_day_short_circuit (o : Option Json) :
    generateDayInsights [] o =
      { success := true
        insights := .arr (emptyDayInsights.map .str)
        visualInsights :=
          { energyHeatmap := []
            focusBlocks := []
            workLifeBalance := .short 0 0 0 0 }
        calledLLM := false } ∧
    emptyDayInsights.length = 5 :=
  ⟨rfl, rfl⟩

/-- C3: the energy label is `high` exactly on `[9,12)`, `medium` exactly
on `[6,9) ∪ [16,19)`, and `low` exactly elsewhere. -/
theorem optimalEnergy_characterization (t : ℚ) :
    (optimalEnergy t = .high ↔ 9 ≤ t ∧ t < 12) ∧
    (optimalEnergy t = .medium ↔ (6 ≤ t ∧ t < 9) ∨ (16 ≤ t ∧ t < 19)) ∧
    (optimalEnergy t = .low ↔
      ¬((9 ≤ t ∧ t < 12) ∨ (6 ≤ t ∧ t < 9) ∨ (16 ≤ t ∧ t < 19))) := by
  unfold optimalEnergy
  split_ifs with h1 h2
  · refine ⟨⟨fun _ => h1, fun _ => rfl⟩, ⟨fun h => absurd h (by simp), fun hm => ?_⟩,
      ⟨fun h => absurd h (by simp), fun hl => absurd (Or.inl h1) hl⟩⟩
    rcases hm with ⟨a, b⟩ | ⟨a, b⟩ <;> exfalso <;> linarith [h1.1, h1.2]
  · exact ⟨⟨fun h => absurd h (by simp), fun hh => absurd hh h1⟩,
      ⟨fun _ => h2, fun _ => rfl⟩,
      ⟨fun h => absurd h (by simp), fun hl => absurd (Or.inr h2) hl⟩⟩
  · exact ⟨⟨fun h => absurd h (by simp), fun hh => absurd hh h1⟩,
      ⟨fun h => absurd h (by simp), fun hm => absurd hm h2⟩,
      ⟨fun _ => fun hd => hd.elim h1 (fun hd2 => h2 hd2), fun _ => rfl⟩⟩

/-- C5: the alignment field of every heatmap entry agrees with the §4.1
decision table read in the claimed row order with first match winning. -/
theorem alignment_decision_table :
    (∀ (t : TaskType) (e : Energy), alignmentOf t e = alignTable t e) ∧
    ∀ ev : Event,
      (heatmapEntry ev).alignment =
        alignTable (heatmapEntry ev).actualTaskType (heatmapEntry ev).optimalEnergy :=
  ⟨alignmentOf_eq_alignTable,
   fun ev => by simp [heatmapEntry, alignmentOf_eq_alignTable]⟩

/-- C10: the empty-day response carries the four-field zero balance
object, while every non-empty list yields the nine-field object built by
`calculateVisualInsights`. -/
theorem workLifeBalance_shape :
    (∀ o : Option Json,
      (generateDayInsights [] o).visualInsights.workLifeBalance = .short 0 0 0 0) ∧
    ∀ (evs : List Event) (o : Option Json), evs ≠ [] →
      (generateDayInsights evs o).visualInsights.workLifeBalance = .full (fullWLB evs) := by
  refine ⟨fun o => rfl, fun evs o h => ?_⟩
  cases evs with
  | nil => exact absurd rfl h
  | cons e r => rfl

/-- Witness for C10 at a concrete one-event list. -/
theorem workLifeBalance_shape_witness :
    [evCoding] ≠ ([] : List Event) ∧
    (generateDayInsights [evCoding] none).visualInsights.workLifeBalance =
      .full (fullWLB [evCoding]) :=
  ⟨by simp, workLifeBalance_shape.2 [evCoding] none (by simp)⟩

/-- C7 counterexample: the model reply `42` is valid JSON but not an array
of strings; the handler keeps it as-is instead of substituting the
fallback list, so the claim as stated fails. -/
theorem insights_nonarray_json_counterexample :
    isStringArray (.num 42) = false ∧
    (generateDayInsights [evCoding] (some (.num 42))).success = true ∧
    (generateDayInsights [evCoding] (some (.num 42))).insights = .num 42 ∧
    Json.num 42 ≠ .arr (fallbackInsights.map .str) :=
  ⟨rfl, rfl, rfl, fun h => Json.noConfusion h⟩

/-- C7 amended: on a non-empty list the response is always a success; the
fallback strings are substituted exactly when `JSON.parse` throws, and any
successfully parsed JSON value is returned as-is. -/
theorem insights_parse_fallback_amended (evs : List Event) (o : Option Json) (h : evs ≠ []) :
    (generateDayInsights evs o).success = true ∧
    (o = none →
      (generateDayInsights evs o).insights = .arr (fallbackInsights.map .str)) ∧
    ∀ j, o = some j → (generateDayInsights evs o).insights = j := by
  cases evs with
  | nil => exact absurd rfl h
  | cons e r =>
    refine ⟨rfl, fun ho => ?_, fun j hj => ?_⟩
    · subst ho; rfl
    · subst hj; rfl

/-- Witness for C7 amended: a throwing parse on a one-event day yields the
fallback strings. -/
theorem insights_parse_fallback_amended_witness :
    (generateDayInsights [evCoding] none).insights = .arr (fallbackInsights.map .str) :=
  (insights_parse_fallback_amended [evCoding] none (by simp)).2.1 rfl

/-- C8: whenever the accumulated total duration is zero, all four
percentage fields and the balance score are zero; the embedding, like the
source, reaches this through the `totalHours` guards rather than a
division. -/
theorem zero_total_hours_guard (evs : List Event) (h : totalHours evs = 0) :
    (fullWLB evs).workPercentage = 0 ∧
    (fullWLB evs).personalPercentage = 0 ∧
    (fullWLB evs).healthPercentage = 0 ∧
    (fullWLB evs).otherPercentage = 0 ∧
    (fullWLB evs).balanceScore = 0 := by
  simp [fullWLB, pct, calculateBalanceScore, h]

/-- Witness for C8: a single zero-duration event gives total zero and a
zero balance score. -/
theorem zero_total_hours_guard_witness :
    totalHours [evZero] = 0 ∧ (fullWLB [evZero]).balanceScore = 0 := by
  have hz : totalHours [evZero] = 0 := by
    have hb : broadCategoryOf (lowerCategory (none : Option String)) = .other := by decide
    simp [totalHours, catTotals, addTotal, evZero, hb]
  exact ⟨hz, (zero_total_hours_guard [evZero] hz).2.2.2.2⟩

/-- C4: the task type agrees with the claimed first-match substring rules
on the lower-cased, `"other"`-defaulted category; the matching factors
through lowering, so it is case-insensitive; and the claimed examples
evaluate as stated. -/
theorem task_type_substring_rules :
    (∀ c : Option String, actualTaskType c = specTaskType c) ∧
    (∀ s t : String, lowerStr s = lowerStr t →
      actualTaskType (some s) = actualTaskType (some t)) ∧
    actualTaskType (some "CODING") = .deepWork ∧
    actualTaskType (some "Coding") = .deepWork ∧
    actualTaskType none = .other := by
  refine ⟨fun c => ?_, fun s t h => ?_, by decide, by decide, by decide⟩
  · cases c with
    | none => rfl
    | some s =>
      by_cases hs : lowerStr s = ""
      · simp only [actualTaskType, lowerCategory, specTaskType, hs, if_pos rfl]
        decide
      · simp only [actualTaskType, lowerCategory, specTaskType, if_neg hs]
        rfl
  · simp only [actualTaskType, lowerCategory, h]

/-- Witness for C4: case-insensitivity applied at `"CODING"` vs
`"coding"`. -/
theorem task_type_substring_rules_witness :
    lowerStr "CODING" = lowerStr "coding" ∧
    actualTaskType (some "CODING") = actualTaskType (some "coding") :=
  ⟨by decide, task_type_substring_rules.2.1 "CODING" "coding" (by decide)⟩

/-- C6: the segmenter emits one block per input event; block start times
are ascending; qualities follow the claimed two-sided thresholds; and the
block at each sorted position is exactly the claimed record, with
`hasBreakAfter` determined by being last or by a gap of at least 0.25 to
the next sorted event. -/
theorem focus_block_segmenter_spec (evs : List Event) :
    (focusBlocks evs).length = evs.length ∧
    List.Sorted (· ≤ ·) ((focusBlocks evs).map FocusBlock.startTime) ∧
    (∀ d : ℚ, qualityOf d = specQuality d) ∧
    ∀ i : ℕ,
      (focusBlocks evs)[i]? =
        ((sortedEvents evs)[i]?).map fun e => specBlock e (sortedEvents evs)[i + 1]? := by
  refine ⟨?_, ?_, qualityOf_eq_specQuality, fun i => ?_⟩
  · rw [focusBlocks, focusBlocksAux_length, sortedEvents,
      (List.perm_insertionSort evLE evs).length_eq]
  · rw [focusBlocks, focusBlocksAux_map_startTime]
    exact List.pairwise_map.mpr (sorted_sortedEvents evs)
  · exact focusBlocksAux_getElem (sortedEvents evs) i

/-- A body accepted by the schema whose optional description is the empty
string. -/
def bodyEmptyDesc : EventBody :=
  { title := "A"
    description := some ""
    startTime := 9
    endTime := 10
    date := "2025-01-02"
    emoji := none
    colorHex := none
    category := none
    participants := none
    isCompleted := none
    notificationSettings := none }

/-- A body with every optional field present and non-empty. -/
def bodyFull : EventBody :=
  { title := "Standup"
    description := some "Daily sync"
    startTime := 9
    endTime := 10
    date := "2025-01-02"
    emoji := some "X"
    colorHex := some "#FF69B4"
    category := some "meeting"
    participants := some ["ana"]
    isCompleted := some true
    notificationSettings := some { enabled := true, minutesBefore := [5], notificationIds := ["n1"] } }

/-- C9 counterexample: an accepted body with `description: ""` comes back
with `description: null` after create-then-fetch, so the mapping is lossy
and the round-trip claim as stated fails. -/
theorem roundTrip_empty_string_counterexample :
    validEventBody bodyEmptyDesc = true ∧
    bodyEmptyDesc.description = some "" ∧
    (roundTrip "u" bodyEmptyDesc).description ≠ bodyEmptyDesc.description := by
  refine ⟨by decide, rfl, ?_⟩
  decide

/-- C9 amended: for accepted bodies the round-trip preserves every
submitted field value, provided the optional string fields are not the
empty string (the create-side `||` coalesces an empty string to null) and
the collection-valued fields are compared where present (absent ones come
back as their documented defaults). -/
theorem roundTrip_amended (uid : String) (b : EventBody)
    (hv : validEventBody b = true)
    (hd : b.description ≠ some "") (he : b.emoji ≠ some "")
    (hx : b.colorHex ≠ some "") (hc : b.category ≠ some "") :
    (roundTrip uid b).title = b.title ∧
    (roundTrip uid b).description = b.description ∧
    (roundTrip uid b).startTime = b.startTime ∧
    (roundTrip uid b).endTime = b.endTime ∧
    (roundTrip uid b).date = b.date ∧
    (roundTrip uid b).emoji = b.emoji ∧
    (roundTrip uid b).colorHex = b.colorHex ∧
    (roundTrip uid b).category = b.category ∧
    (∀ ps, b.participants = some ps → (roundTrip uid b).participants = ps) ∧
    (∀ ic, b.isCompleted = some ic → (roundTrip uid b).isCompleted = ic) ∧
    (∀ ns, b.notificationSettings = some ns →
      (roundTrip uid b).notificationSettings = ns) := by
  have hstr : ∀ o : Option String, o ≠ some "" → strOrNull o = o := by
    intro o ho
    cases o with
    | none => rfl
    | some s =>
      simp only [strOrNull]
      rw [if_neg fun hs => ho (by rw [hs])]
  refine ⟨rfl, ?_, rfl, rfl, rfl, ?_, ?_, ?_, fun ps hps => ?_, fun ic hic => ?_, fun ns hns => ?_⟩
  · exact hstr b.description hd
  · exact hstr b.emoji he
  · exact hstr b.colorHex hx
  · exact hstr b.category hc
  · simp [roundTrip, toDbEvent, fromDbEvent, hps]
  · simp [roundTrip, toDbEvent, fromDbEvent, hic]
  · simp [roundTrip, toDbEvent, fromDbEvent, hns]

/-- Witness for C9 amended at a fully populated accepted body. -/
theorem roundTrip_amended_witness :
    (roundTrip "u" bodyFull).description = bodyFull.description ∧
    (roundTrip "u" bodyFull).participants = ["ana"] ∧
    (roundTrip "u" bodyFull).isCompleted = true := by
  have h := roundTrip_amended "u" bodyFull (by decide) (by decide) (by decide) (by decide) (by decide)
  exact ⟨h.2.1, h.2.2.2.2.2.2.2.2.1 ["ana"] rfl, h.2.2.2.2.2.2.2.2.2.1 true rfl⟩

/-- C1 amended: for a positive total duration, each reported percentage is
`round(bucket / totalHours * 100)` with the buckets given by the §4.3
substring rules, `totalHours` is the sum of all event durations, and the
balance score is `round(max(0, 100 - (|W-60| + |P-25| + |H-15|)))`
computed from the *unrounded* percentages `W`, `P`, `H` (only the final
score is rounded). -/
theorem balance_scorer_amended (evs : List Event) (h : 0 < totalHours evs) :
    totalHours evs = (evs.map fun e => e.end_time - e.start_time).sum ∧
    (fullWLB evs).work = bucketDuration evs .work ∧
    (fullWLB evs).personal = bucketDuration evs .personal ∧
    (fullWLB evs).health = bucketDuration evs .health ∧
    (fullWLB evs).other = bucketDuration evs .other ∧
    (fullWLB evs).workPercentage = round (bucketDuration evs .work / totalHours evs * 100) ∧
    (fullWLB evs).personalPercentage = round (bucketDuration evs .personal / totalHours evs * 100) ∧
    (fullWLB evs).healthPercentage = round (bucketDuration evs .health / totalHours evs * 100) ∧
    (fullWLB evs).otherPercentage = round (bucketDuration evs .other / totalHours evs * 100) ∧
    (fullWLB evs).balanceScore = round (max 0 (100 -
      (|bucketDuration evs .work / totalHours evs * 100 - 60| +
       |bucketDuration evs .personal / totalHours evs * 100 - 25| +
       |bucketDuration evs .health / totalHours evs * 100 - 15|))) := by
  have hne : totalHours evs ≠ 0 := ne_of_gt h
  refine ⟨totalHours_eq_sum evs, ?_, ?_, ?_, ?_, ?_, ?_, ?_, ?_, ?_⟩
  all_goals simp [fullWLB, catTotals_eq, pct, calculateBalanceScore, h, hne]

/-- Witness for C1 amended at a two-event day with positive total. -/
theorem balance_scorer_amended_witness :
    0 < totalHours [evWork, evPersonal] ∧
    totalHours [evWork, evPersonal] =
      ([evWork, evPersonal].map fun e => e.end_time - e.start_time).sum := by
  have hbw : broadCategoryOf (lowerCategory (some "work")) = .work := by decide
  have hbp : broadCategoryOf (lowerCategory (some "personal")) = .personal := by decide
  have hp : 0 < totalHours [evWork, evPersonal] := by
    simp [totalHours, catTotals, addTotal, evWork, evPersonal, hbw, hbp]
  exact ⟨hp, (balance_scorer_amended [evWork, evPersonal] hp).1⟩

/-- C1 counterexample: on a day with one hour of `work` and two hours of
`personal`, the scorer reports percentages 33/67/0 and a balance score of
17 (deviations taken on the unrounded percentages), while the claimed
formula over the rounded percentages gives 16. -/
theorem balanceScore_rounding_counterexample :
    (fullWLB [evWork, evPersonal]).workPercentage = 33 ∧
    (fullWLB [evWork, evPersonal]).personalPercentage = 67 ∧
    (fullWLB [evWork, evPersonal]).healthPercentage = 0 ∧
    claimedBalanceScore [evWork, evPersonal] = 16 ∧
    (fullWLB [evWork, evPersonal]).balanceScore = 17 := by
  have hbw : broadCategoryOf (lowerCategory (some "work")) = .work := by decide
  have hbp : broadCategoryOf (lowerCategory (some "personal")) = .personal := by decide
  have hct : catTotals [evWork, evPersonal] = ⟨1, 2, 0, 0⟩ := by
    simp [catTotals, addTotal, evWork, evPersonal, hbw, hbp]
    norm_num
  have hth : totalHours [evWork, evPersonal] = 3 := by
    simp [totalHours, hct]
    norm_num
  have hW : (fullWLB [evWork, evPersonal]).workPercentage = 33 := by
    simp only [fullWLB, hct, hth, pct]
    rw [if_pos (by norm_num)]
    norm_num [round_eq]
  have hP : (fullWLB [evWork, evPersonal]).personalPercentage = 67 := by
    simp only [fullWLB, hct, hth, pct]
    rw [if_pos (by norm_num)]
    norm_num [round_eq]
  have hH : (fullWLB [evWork, evPersonal]).healthPercentage = 0 := by
    simp only [fullWLB, hct, hth, pct]
    rw [if_pos (by norm_num)]
    norm_num [round_eq]
  have hS : (fullWLB [evWork, evPersonal]).balanceScore = 17 := by
    simp only [fullWLB, hct, hth, calculateBalanceScore]
    rw [if_neg (by norm_num)]
    rw [abs_of_nonpos (by norm_num), abs_of_nonneg (by norm_num), abs_of_nonpos (by norm_num)]
    rw [max_eq_right (by norm_num)]
    norm_num [round_eq]
  refine ⟨hW, hP, hH, ?_, hS⟩
  simp only [claimedBalanceScore, hW, hP, hH]
  rw [abs_of_nonpos (by norm_num), abs_of_nonneg (by norm_num), abs_of_nonpos (by norm_num)]
  rw [max_eq_right (by norm_num)]
  norm_num [round_eq]
